import Mathlib

/-!
Verification model of the medusa-starter rental plugin.

This file gives a shallow embedding of the service and repository layer of the
rental catalog plugin (RentalService, RentalVariantService,
RentalCollectionService, RentalRepository and the AdminPostRentals route
handler), and proves properties of that embedding.

Modelling conventions:
* Database rows carry a `deleted` flag standing for the soft-delete timestamp
  (`deleted_at IS NOT NULL`); every read goes through an `active*` helper that
  filters it out, mirroring the ORM's default soft-delete scope.
* Entity ids are natural numbers; fresh ids are drawn from `DB.nextId`.
  An id of `0` plays the role of a JavaScript-falsy id (empty string).
* A fallible service method returns `Except ErrType`; `ErrType.jsTypeError`
  marks a code path where the JavaScript source would throw a raw `TypeError`
  (property access on `undefined`) rather than a typed `MedusaError`.
* Transactions: a computation of type `Except ErrType (DB × α)` is atomic by
  construction — returning `.error` yields no new state, which models the
  TypeORM contract that a transaction rolls back wholesale when the callback
  throws.  `withTransaction(manager)` in the source makes nested service calls
  join the caller's transaction, so a whole route-level `entityManager
  .transaction` block is a single such computation.
* External collaborators (event bus, search indexer, shipping profiles, tag /
  type / image repositories, pricing strategy) do not affect the persisted
  rental state studied here and are omitted; the region lookup and the money
  amount store are modelled because prices are part of the claims.
-/

namespace MedusaRental

/-- Error taxonomy of `MedusaError.Types` as used by the services, plus
`jsTypeError` for paths where the JavaScript would crash with a `TypeError`. -/
inductive ErrType where
  | notFound
  | invalidData
  | duplicateError
  | jsTypeError
deriving Repr, DecidableEq

/-- A `rental_option_value` row: links a variant to an option with a string
value.  `option_id` is an `Option` because the AdminPostRentals route can
produce an `undefined` option id through its positional index mapping. -/
structure RentalOptionValue where
  variant_id : Nat
  option_id : Option Nat
  value : String
  deleted : Bool
deriving Repr, DecidableEq

/-- A `rental_option` row, owned by one rental. -/
structure RentalOption where
  id : Nat
  rental_id : Nat
  title : String
  deleted : Bool
deriving Repr, DecidableEq

/-- A `rental_variant` row together with its option-value rows.  Scalar
passthrough columns not used by any claim (sku, barcode, dimensions, ...) are
omitted. -/
structure RentalVariant where
  id : Nat
  rental_id : Nat
  title : Option String
  variant_rank : Nat
  options : List RentalOptionValue
  deleted : Bool
deriving Repr, DecidableEq

/-- A `rental` row together with its owned options and variants. -/
structure Rental where
  id : Nat
  title : String
  thumbnail : Option String
  images : List String
  is_giftcard : Bool
  discountable : Bool
  options : List RentalOption
  variants : List RentalVariant
  deleted : Bool
deriving Repr, DecidableEq

/-- A `rental_collection` row. -/
structure RentalCollection where
  id : Nat
  title : String
  deleted : Bool
deriving Repr, DecidableEq

/-- A `money_amount` row (external entity owned by a variant). -/
structure MoneyAmount where
  id : Nat
  variant_id : Nat
  currency_code : Option String
  region_id : Option Nat
  amount : Int
  min_quantity : Option Nat
  max_quantity : Option Nat
  price_list_id : Option Nat
  deleted : Bool
deriving Repr, DecidableEq

/-- A region as consumed through `RegionService.retrieve`. -/
structure Region where
  id : Nat
  currency_code : String
deriving Repr, DecidableEq

/-- The persisted state touched by the modelled services. -/
structure DB where
  rentals : List Rental
  collections : List RentalCollection
  moneyAmounts : List MoneyAmount
  regions : List Region
  nextId : Nat
deriving Repr, DecidableEq

/-- Non-deleted options of a rental, as loaded by the `options` relation. -/
def activeOptions (r : Rental) : List RentalOption :=
  r.options.filter (fun o => !o.deleted)

/-- Non-deleted variants of a rental, as loaded by the `variants` relation. -/
def activeVariants (r : Rental) : List RentalVariant :=
  r.variants.filter (fun v => !v.deleted)

/-- Non-deleted option values of a variant, as loaded by the
`variants.options` relation. -/
def activeValues (v : RentalVariant) : List RentalOptionValue :=
  v.options.filter (fun ov => !ov.deleted)

/-- The default soft-delete scoped `findOne` on the rental repository. -/
def findRental (db : DB) (rentalId : Nat) : Option Rental :=
  db.rentals.find? (fun r => r.id == rentalId && !r.deleted)

/-- The default soft-delete scoped `findOne` on the variant repository,
searching across all rentals. -/
def findVariant (db : DB) (variantId : Nat) : Option RentalVariant :=
  (db.rentals.map (fun r => r.variants.filter (fun v => v.id == variantId && !v.deleted))).flatten.head?

/-- Rewrites a stored variant row in place. -/
def mapVariantRows (db : DB) (variantId : Nat) (f : RentalVariant → RentalVariant) : DB :=
  { db with rentals := db.rentals.map (fun r =>
      { r with variants := r.variants.map (fun v => if v.id == variantId then f v else v) }) }

/-- The input shape of one option value, `RentalVariantOption` in the source
(`option_id` can be `undefined` at runtime when the route maps it
positionally). -/
structure RentalVariantOption where
  option_id : Option Nat
  value : String
deriving Repr, DecidableEq

/-- The input shape of one price entry, `RentalVariantPrice` in the source. -/
structure RentalVariantPrice where
  currency_code : Option String
  region_id : Option Nat
  amount : Int
  min_quantity : Option Nat
  max_quantity : Option Nat
deriving Repr, DecidableEq

/-- `CreateRentalVariantInput` restricted to the columns the claims read. -/
structure CreateRentalVariantInput where
  title : Option String
  variant_rank : Option Nat
  options : List RentalVariantOption
  prices : List RentalVariantPrice
deriving Repr, DecidableEq

/-- `RegionService.retrieve`: fails with NotFound for an unknown region. -/
def regionRetrieve (db : DB) (regionId : Nat) : Except ErrType Region :=
  match db.regions.find? (fun r => r.id == regionId) with
  | some r => .ok r
  | none => .error .notFound

/-- The default-price scope predicate of `setRegionPrice`: a non-deleted,
non-price-list money amount of the variant for the given region. -/
def isDefaultRegionRow (variantId : Nat) (regionId : Option Nat) (ma : MoneyAmount) : Bool :=
  !ma.deleted && ma.variant_id == variantId && ma.region_id == regionId &&
    ma.price_list_id == none

/-- `RentalVariantService.setRegionPrice`: finds the default price row for the
exact (variant, region) scope and updates its amount, or inserts a new row.
The source is always called with a defined `price.region_id`. -/
def setRegionPrice (db : DB) (variantId : Nat) (price : RentalVariantPrice) :
    DB × MoneyAmount :=
  match db.moneyAmounts.find? (isDefaultRegionRow variantId price.region_id) with
  | some ma =>
      let updated := { ma with amount := price.amount }
      let newAmounts := db.moneyAmounts.map (fun x =>
        if x.id == ma.id then { x with amount := price.amount } else x)
      ({ db with moneyAmounts := newAmounts }, updated)
  | none =>
      let newMa : MoneyAmount :=
        { id := db.nextId, variant_id := variantId,
          currency_code := price.currency_code, region_id := price.region_id,
          amount := price.amount, min_quantity := price.min_quantity,
          max_quantity := price.max_quantity, price_list_id := none,
          deleted := false }
      let db2 := { db with
        moneyAmounts := db.moneyAmounts ++ [newMa]
        nextId := db.nextId + 1 }
      (db2, newMa)

/-- `RentalVariantService.setCurrencyPrice`, delegating to the host platform's
`MoneyAmountRepository.upsertVariantCurrencyPrice`: upsert of the default
(region-less, non-price-list) price row for the variant and currency. -/
def setCurrencyPrice (db : DB) (variantId : Nat) (price : RentalVariantPrice) :
    DB × MoneyAmount :=
  match db.moneyAmounts.find? (fun ma =>
      !ma.deleted && ma.variant_id == variantId && ma.region_id == none &&
      ma.currency_code == price.currency_code && ma.price_list_id == none) with
  | some ma =>
      let updated := { ma with amount := price.amount }
      let newAmounts := db.moneyAmounts.map (fun x =>
        if x.id == ma.id then { x with amount := price.amount } else x)
      ({ db with moneyAmounts := newAmounts }, updated)
  | none =>
      let newMa : MoneyAmount :=
        { id := db.nextId, variant_id := variantId,
          currency_code := price.currency_code, region_id := none,
          amount := price.amount, min_quantity := price.min_quantity,
          max_quantity := price.max_quantity, price_list_id := none,
          deleted := false }
      let db2 := { db with
        moneyAmounts := db.moneyAmounts ++ [newMa]
        nextId := db.nextId + 1 }
      (db2, newMa)

/-- The per-price upsert loop shared by `create` and `updateVariantPrices`:
region-scoped prices resolve the region's currency first (dropping the
quantity tier, as the source rebuilds the price object), currency prices go
through the currency upsert. -/
def applyPriceEntry (db : DB) (variantId : Nat) (price : RentalVariantPrice) :
    Except ErrType DB :=
  match price.region_id with
  | some rid => do
      let region ← regionRetrieve db rid
      pure (setRegionPrice db variantId
        { currency_code := some region.currency_code, region_id := some rid,
          amount := price.amount, min_quantity := none, max_quantity := none }).1
  | none => pure (setCurrencyPrice db variantId price).1

/-- `RentalVariantService.create`.  Validation order follows the source:
option-count check, option-coverage check, duplicate-combination check; then
the `variant_rank` default (the JavaScript `!rest.variant_rank` also fires on
an explicitly passed rank of `0`), persistence, and the price loop. -/
def variantCreate (db : DB) (rentalId : Nat) (variant : CreateRentalVariantInput) :
    Except ErrType (DB × RentalVariant) :=
  match findRental db rentalId with
  | none => .error .jsTypeError
  | some rental =>
    let rentalOptions := activeOptions rental
    let rentalVariants := activeVariants rental
    if rentalOptions.length != variant.options.length then
      .error .invalidData
    else if rentalOptions.any (fun o =>
        !(variant.options.any (fun vo => vo.option_id == some o.id))) then
      .error .invalidData
    else if rentalVariants.any (fun v => (activeValues v).all (fun ov =>
        match variant.options.find? (fun o => ov.option_id == o.option_id) with
        | some vo => vo.value == ov.value
        | none => false)) then
      .error .duplicateError
    else
      let rank := match variant.variant_rank with
        | none => rentalVariants.length
        | some 0 => rentalVariants.length
        | some r => r
      let newId := db.nextId
      let newVariant : RentalVariant :=
        { id := newId, rental_id := rental.id, title := variant.title,
          variant_rank := rank,
          options := variant.options.map (fun vo =>
            { variant_id := newId, option_id := vo.option_id,
              value := vo.value, deleted := false }),
          deleted := false }
      let db1 : DB :=
        { db with
          rentals := db.rentals.map (fun r =>
            if r.id == rental.id && !r.deleted then
              { r with variants := r.variants ++ [newVariant] }
            else r)
          nextId := db.nextId + 1 }
      (variant.prices.foldlM (fun dbAcc p => applyPriceEntry dbAcc newVariant.id p) db1).map
        (fun db2 => (db2, newVariant))

/-- `RentalVariantService.updateOptionValue`: fails with NotFound when no
option-value row exists for the (variant, option) pair, otherwise overwrites
its value. -/
def updateOptionValue (db : DB) (variantId : Nat) (optionId : Option Nat)
    (optionValue : String) : Except ErrType DB :=
  let rowExists := db.rentals.any (fun r => r.variants.any (fun v =>
    v.id == variantId && v.options.any (fun ov =>
      ov.option_id == optionId && !ov.deleted)))
  if rowExists then
    .ok (mapVariantRows db variantId (fun v =>
      { v with options :=
          let found := v.options.find? (fun ov => ov.option_id == optionId && !ov.deleted)
          v.options.map (fun ov =>
            if found == some ov then { ov with value := optionValue } else ov) }))
  else
    .error .notFound

/-- `RentalVariantService.addOptionValue`: unconditionally inserts a new
option-value row for the variant. -/
def addOptionValue (db : DB) (variantId : Nat) (optionId : Nat) (optionValue : String) : DB :=
  mapVariantRows db variantId (fun v =>
    { v with options := v.options ++
        [{ variant_id := variantId, option_id := some optionId,
           value := optionValue, deleted := false }] })

/-- `RentalVariantService.deleteOptionValue`: idempotent — a missing row is a
no-op, an existing row is soft-removed. -/
def deleteOptionValue (db : DB) (variantId : Nat) (optionId : Nat) : Except ErrType DB :=
  let rowExists := db.rentals.any (fun r => r.variants.any (fun v =>
    v.id == variantId && v.options.any (fun ov =>
      ov.option_id == some optionId && !ov.deleted)))
  if !rowExists then
    .ok db
  else
    .ok (mapVariantRows db variantId (fun v =>
      { v with options :=
          let found := v.options.find? (fun ov => ov.option_id == some optionId && !ov.deleted)
          v.options.map (fun ov =>
            if found == some ov then { ov with deleted := true } else ov) }))

/-- The host platform's `MoneyAmountRepository.findVariantPricesNotIn`: the
variant's default (non-price-list) price rows whose scope — region, or
currency for region-less rows — is absent from the supplied list. -/
def findVariantPricesNotIn (db : DB) (variantId : Nat) (prices : List RentalVariantPrice) :
    List MoneyAmount :=
  db.moneyAmounts.filter (fun ma =>
    !ma.deleted && ma.variant_id == variantId && ma.price_list_id == none &&
    !(prices.any (fun p =>
        (p.region_id.isSome && ma.region_id == p.region_id) ||
        (p.region_id == none && ma.region_id == none &&
          ma.currency_code == p.currency_code))))

/-- Hard-removes money amount rows by row id (`moneyAmountRepo.remove`). -/
def removeMoneyAmounts (db : DB) (ids : List Nat) : DB :=
  { db with moneyAmounts := db.moneyAmounts.filter (fun ma => !(ids.contains ma.id)) }

/-- `RentalVariantService.updateVariantPrices`: collects the obsolete default
prices first, upserts every supplied price, then removes the obsolete rows. -/
def updateVariantPrices (db : DB) (variantId : Nat) (prices : List RentalVariantPrice) :
    Except ErrType DB := do
  let obsolete := findVariantPricesNotIn db variantId prices
  let db1 ← prices.foldlM (fun dbAcc p => applyPriceEntry dbAcc variantId p) db
  pure (removeMoneyAmounts db1 (obsolete.map (fun ma => ma.id)))

/-- `UpdateRentalVariantInput` restricted to the columns the claims read.  A
field being `none` models the key being absent from the update object. -/
structure UpdateRentalVariantInput where
  title : Option String
  variant_rank : Option Nat
  options : Option (List RentalVariantOption)
  prices : Option (List RentalVariantPrice)
deriving Repr, DecidableEq

/-- `RentalVariantService.update`.  The variant argument is either an id
(`Sum.inl`) or an already-loaded variant object (`Sum.inr`), as in the source.
Prices and option values are reconciled through their dedicated helpers before
the remaining scalar fields are applied and the row is saved.  Saving persists
only the loaded scalar columns, not the (unloaded) option relation. -/
def variantUpdate (db : DB) (variantRef : Sum Nat RentalVariant)
    (upd : UpdateRentalVariantInput) : Except ErrType (DB × RentalVariant) := do
  let variant ← match variantRef with
    | .inl vid =>
      match findVariant db vid with
      | some v => Except.ok v
      | none => Except.error ErrType.notFound
    | .inr v =>
      if v.id == 0 then Except.error ErrType.invalidData else Except.ok v
  let db1 ← match upd.prices with
    | some prices => updateVariantPrices db variant.id prices
    | none => pure db
  let db2 ← match upd.options with
    | some options =>
        options.foldlM (fun dbAcc o => updateOptionValue dbAcc variant.id o.option_id o.value) db1
    | none => pure db1
  let applyScalars : RentalVariant → RentalVariant := fun v =>
    { v with
      title := match upd.title with | some t => some t | none => v.title
      variant_rank := match upd.variant_rank with | some r => r | none => v.variant_rank }
  let db3 := mapVariantRows db2 variant.id applyScalars
  pure (db3, applyScalars variant)

/-- `RentalVariantService.delete`: idempotent.  A missing variant is a no-op;
an existing one is soft-removed together with its eagerly loaded prices and
option values. -/
def variantDelete (db : DB) (variantId : Nat) : Except ErrType DB :=
  match findVariant db variantId with
  | none => .ok db
  | some _ =>
      let db1 := mapVariantRows db variantId (fun v =>
        { v with
          deleted := true
          options := v.options.map (fun ov => { ov with deleted := true }) })
      .ok { db1 with moneyAmounts := db1.moneyAmounts.map (fun ma =>
        if ma.variant_id == variantId then { ma with deleted := true } else ma) }

/-- `CreateRentalInput` restricted to the fields the claims read; tag, type,
image and sales-channel upserts go to collaborator repositories and do not
touch the rental aggregate state modelled here. -/
structure CreateRentalInput where
  title : String
  is_giftcard : Bool
  discountable : Bool
  thumbnail : Option String
  images : List String
  options : List String
deriving Repr, DecidableEq

/-- `RentalService.create`: derives the thumbnail from the first image when
unset, forces `discountable := false` for giftcards, persists the rental row
and then one option row per declared option title, and returns the re-fetched
rental with its options relation populated (variants are not created here). -/
def rentalCreate (db : DB) (input : CreateRentalInput) : DB × Rental :=
  let thumbnail := match input.thumbnail with
    | some t => some t
    | none => input.images.head?
  let discountable := if input.is_giftcard then false else input.discountable
  let rid := db.nextId
  let optionFold := input.options.foldl
    (fun (acc : List RentalOption × Nat) title =>
      (acc.1 ++ [{ id := acc.2, rental_id := rid, title := title, deleted := false }],
        acc.2 + 1))
    ([], db.nextId + 1)
  let rental : Rental :=
    { id := rid, title := input.title, thumbnail := thumbnail,
      images := input.images, is_giftcard := input.is_giftcard,
      discountable := discountable, options := optionFold.1, variants := [],
      deleted := false }
  let db1 := { db with
    rentals := db.rentals ++ [rental]
    nextId := optionFold.2 }
  (db1, rental)

/-- `RentalService.delete`: idempotent.  A missing rental is a no-op; an
existing one is soft-removed together with its loaded variants, their prices
and their option values (the rental's option rows are not loaded and stay). -/
def rentalDelete (db : DB) (rentalId : Nat) : Except ErrType DB :=
  match findRental db rentalId with
  | none => .ok db
  | some rental =>
      let variantIds := (activeVariants rental).map (fun v => v.id)
      let softRemoveRental : Rental → Rental := fun r =>
        if r.id == rentalId && !r.deleted then
          { r with
            deleted := true
            variants := r.variants.map (fun v =>
              if v.deleted then v
              else { v with
                deleted := true
                options := v.options.map (fun ov => { ov with deleted := true }) }) }
        else r
      let softRemovePrice : MoneyAmount → MoneyAmount := fun ma =>
        if variantIds.contains ma.variant_id then { ma with deleted := true } else ma
      .ok { db with
        rentals := db.rentals.map softRemoveRental
        moneyAmounts := db.moneyAmounts.map softRemovePrice }

/-- `RentalCollectionService.delete`: goes through `retrieve`, which throws
NotFound for a missing or already soft-removed collection; the subsequent
`if (!collection)` guard in the source is dead code. -/
def collectionDelete (db : DB) (collectionId : Nat) : Except ErrType DB :=
  match db.collections.find? (fun c => c.id == collectionId && !c.deleted) with
  | none => .error .notFound
  | some c =>
      .ok { db with collections := db.collections.map (fun x =>
        if x.id == c.id then { x with deleted := true } else x) }

/-- The row rewrite of the option insert inside `addOption`: appends the new
option row to the targeted rental. -/
def appendOptionRow (rentalId : Nat) (newOpt : RentalOption) (r : Rental) : Rental :=
  if r.id == rentalId && !r.deleted then { r with options := r.options ++ [newOpt] }
  else r

/-- `RentalService.addOption`: rejects an exact duplicate title with
DuplicateError, otherwise persists the option and back-fills every loaded
variant with a "Default Value" option value, then returns the re-fetched
rental. -/
def addOption (db : DB) (rentalId : Nat) (optionTitle : String) :
    Except ErrType (DB × Rental) :=
  match findRental db rentalId with
  | none => .error .notFound
  | some rental =>
    if (activeOptions rental).any (fun o => o.title == optionTitle) then
      .error .duplicateError
    else
      let newOpt : RentalOption :=
        { id := db.nextId, rental_id := rentalId, title := optionTitle, deleted := false }
      let db1 := { db with
        rentals := db.rentals.map (appendOptionRow rentalId newOpt)
        nextId := db.nextId + 1 }
      let db2 := (activeVariants rental).foldl
        (fun dbAcc v => addOptionValue dbAcc v.id newOpt.id "Default Value") db1
      match findRental db2 rentalId with
      | some result => .ok (db2, result)
      | none => .error .notFound

/-- The body of the `variantOrder.map` callback of `reorderVariants`: looks
every id up among the current variants, throwing InvalidData at the first id
that matches none of them (a JavaScript `.map` aborts at the first throw). -/
def lookupAll (vs : List RentalVariant) : List Nat → Except ErrType (List RentalVariant)
  | [] => .ok []
  | vid :: rest =>
    match vs.find? (fun v => v.id == vid) with
    | none => .error .invalidData
    | some v => (lookupAll vs rest).map (fun tail => v :: tail)

/-- `RentalService.reorderVariants`: checks that the id list has the same
length as the current variants, then maps every id to the matching current
variant (InvalidData when absent) and reassigns the collection. -/
def reorderVariants (db : DB) (rentalId : Nat) (variantOrder : List Nat) :
    Except ErrType (DB × Rental) :=
  match findRental db rentalId with
  | none => .error .notFound
  | some rental =>
    let vs := activeVariants rental
    if vs.length != variantOrder.length then
      .error .invalidData
    else
      match lookupAll vs variantOrder with
      | .error e => .error e
      | .ok newVs =>
        let rental2 := { rental with variants := newVs }
        let db2 := { db with rentals := db.rentals.map (fun r =>
          if r.id == rental.id && !r.deleted then rental2 else r) }
        .ok (db2, rental2)

/-- `UpdateRentalRentalVariantDTO` restricted to the fields the claims read. -/
structure UpdateRentalVariantDTO where
  id : Option Nat
  title : Option String
  options : Option (List RentalVariantOption)
  prices : Option (List RentalVariantPrice)
deriving Repr, DecidableEq

/-- `UpdateRentalInput` restricted to the fields the claims read; `title`
stands for the scalar fields applied by the defined-keys loop. -/
structure UpdateRentalInput where
  title : Option String
  variants : Option (List UpdateRentalVariantDTO)
deriving Repr, DecidableEq

/-- Hard-deletes a variant row (`rentalVariantRepo.remove`); its option-value
rows go with it through the foreign-key cascade. -/
def removeVariantRow (db : DB) (variantId : Nat) : DB :=
  { db with rentals := db.rentals.map (fun r =>
      { r with variants := r.variants.filter (fun v => v.id != variantId) }) }

/-- One step of the variant reconciliation loop of `RentalService.update`:
`snapshot` is the in-memory `rental.variants` relation loaded before the
loop, `iv` the 0-based index and incoming variant.  An incoming variant with
a (truthy) id must be in the snapshot and is updated with `variant_rank`
equal to its index; one without an id is created with that rank. -/
def updateVariantStep (snapshot : List RentalVariant) (rentalId : Nat)
    (acc : DB × List RentalVariant) (iv : Nat × UpdateRentalVariantDTO) :
    Except ErrType (DB × List RentalVariant) :=
  let idTruthy := match iv.2.id with
    | some v => v != 0
    | none => false
  if idTruthy then
    match snapshot.find? (fun v => some v.id == iv.2.id) with
    | none => .error .notFound
    | some variant =>
      (variantUpdate acc.1 (.inr variant)
        { title := iv.2.title, variant_rank := some iv.1,
          options := iv.2.options, prices := iv.2.prices }).map
        (fun res => (res.1, acc.2 ++ [res.2]))
  else
    (variantCreate acc.1 rentalId
      { title := iv.2.title, variant_rank := some iv.1,
        options := iv.2.options.getD [], prices := iv.2.prices.getD [] }).map
      (fun res => (res.1, acc.2 ++ [res.2]))

/-- `RentalService.update` (the parts that touch the aggregate): loads the
rental with its variants, reconciles the incoming variants list — variants
missing from it are removed, incoming ones with an id are updated, the rest
are created, each receiving its 0-based position as `variant_rank` — then
applies the remaining defined scalar fields and saves. -/
def rentalUpdate (db : DB) (rentalId : Nat) (upd : UpdateRentalInput) :
    Except ErrType (DB × Rental) := do
  let rental ← match findRental db rentalId with
    | some r => Except.ok r
    | none => Except.error ErrType.notFound
  let snapshot := activeVariants rental
  let reconciled ← match upd.variants with
    | none => pure (db, snapshot)
    | some incoming =>
      let db1 := snapshot.foldl (fun dbAcc v =>
        if incoming.any (fun nv => nv.id == some v.id) then dbAcc
        else removeVariantRow dbAcc v.id) db
      incoming.enum.foldlM (updateVariantStep snapshot rentalId) (db1, [])
  let applyScalars : Rental → Rental := fun r =>
    { r with title := match upd.title with | some t => t | none => r.title }
  let db2 := { reconciled.1 with rentals := reconciled.1.rentals.map (fun r =>
    if r.id == rentalId && !r.deleted then applyScalars r else r) }
  pure (db2, { applyScalars rental with variants := reconciled.2 })

/-- The variant part of the `AdminPostRentalsReq` body: option values carry
only a `value`; their `option_id` is filled in positionally by the route. -/
structure RentalVariantReq where
  title : String
  options : List String
  prices : List RentalVariantPrice
deriving Repr, DecidableEq

/-- The `AdminPostRentalsReq` body restricted to the fields the claims read. -/
structure AdminPostRentalsReq where
  title : String
  is_giftcard : Bool
  discountable : Bool
  thumbnail : Option String
  images : List String
  options : List String
  variants : Option (List RentalVariantReq)
deriving Repr, DecidableEq

/-- The body of the single `entityManager.transaction` block of the
AdminPostRentals route handler: default the thumbnail, create the rental
(with its options) through `RentalService.create`, then — still inside the
same transaction, since every service call joins it via `withTransaction` —
create each requested variant through `RentalVariantService.create`, with
`variant_rank` set to its index and option ids mapped positionally from the
created rental's options.  The concurrent `Promise.all` over the variants is
modelled as a left-to-right fold. -/
def adminPostRentalsTxn (db : DB) (req : AdminPostRentalsReq) :
    Except ErrType (DB × Rental) := do
  let thumbnail := match req.thumbnail with
    | some t => some t
    | none => req.images.head?
  let created := rentalCreate db
    { title := req.title, is_giftcard := req.is_giftcard,
      discountable := req.discountable, thumbnail := thumbnail,
      images := req.images, options := req.options }
  let newRental := created.2
  match req.variants with
  | none => pure (created.1, newRental)
  | some variants =>
    let optionIds : List (Option Nat) := req.options.map (fun t =>
      (newRental.options.find? (fun o => o.title == t)).map (fun o => o.id))
    let db2 ← variants.enum.foldlM (fun dbAcc iv =>
      let vreq : RentalVariantReq := iv.2
      let createInput : CreateRentalVariantInput :=
        { title := some vreq.title
          variant_rank := some iv.1
          options := vreq.options.enum.map (fun p =>
            { option_id := optionIds.getD p.1 none, value := p.2 })
          prices := vreq.prices }
      (variantCreate dbAcc newRental.id createInput).map (fun res => res.1)) created.1
    pure (db2, newRental)

/-- The AdminPostRentals route handler's effect on the store: the transaction
body runs atomically — when it throws, `entityManager.transaction` rolls the
whole transaction back and the store is left as it was. -/
def adminPostRentals (db : DB) (req : AdminPostRentalsReq) :
    DB × Except ErrType Rental :=
  match adminPostRentalsTxn db req with
  | .ok res => (res.1, .ok res.2)
  | .error e => (db, .error e)

/-- The per-variant value an option takes, as read by `deleteOption`
(`v.options.find(o => o.option_id === optionId)?.value`). -/
def optionValueOf (v : RentalVariant) (optionId : Nat) : Option String :=
  ((activeValues v).find? (fun ov => ov.option_id == some optionId)).map
    (fun ov => ov.value)

/-- `RentalService.deleteOption`: no-op when the option is absent from the
rental; InvalidData when some variant's value for the option differs from the
first variant's; otherwise soft-removes the option together with its loaded
value rows (the `values` relation cascades soft-remove). -/
def rentalDeleteOption (db : DB) (rentalId : Nat) (optionId : Nat) :
    Except ErrType (DB × Option Rental) :=
  match findRental db rentalId with
  | none => .error .notFound
  | some rental =>
    match rental.options.find? (fun o => o.id == optionId && !o.deleted) with
    | none => .ok (db, none)
    | some _ =>
      let vs := activeVariants rental
      let guardOk : Bool := match vs with
        | [] => true
        | firstVariant :: _ =>
            vs.all (fun v => optionValueOf v optionId == optionValueOf firstVariant optionId)
      if guardOk then
        let db2 := { db with rentals := db.rentals.map (fun r =>
          { r with
            options := r.options.map (fun o =>
              if o.id == optionId then { o with deleted := true } else o)
            variants := r.variants.map (fun v =>
              { v with options := v.options.map (fun ov =>
                  if ov.option_id == some optionId then { ov with deleted := true }
                  else ov) }) }) }
        .ok (db2, some rental)
      else
        .error .invalidData

/-! Repository model for the relation split-join-merge algorithm of
`RentalRepository`.  The SQL queries themselves (the id-collecting
`queryRentals` and the free-text search query) are database-side and enter as
inputs: a list of matched ids.  What the repository code does with them — the
grouping of relation paths by top-level name, the per-group join queries, the
merge by id, and the re-ordering — is modelled below.  A `PartialRental`
stands for a partially hydrated entity: its id plus the relation keys merged
into it so far; a relation payload is the list of related row ids. -/

/-- A partially hydrated rental as produced by the per-group join queries. -/
structure PartialRental where
  id : Nat
  rels : List (String × List Nat)
deriving Repr, DecidableEq

/-- The database side of the repository model: rental ids in table order and
the relation payload each (rental, top-level relation) join would return. -/
structure RelDB where
  ids : List Nat
  rel : List (Nat × String × List Nat)
deriving Repr, DecidableEq

/-- The payload the join on a top-level relation returns for one rental. -/
def relItems (db : RelDB) (rid : Nat) (top : String) : List Nat :=
  ((db.rel.find? (fun e => e.1 == rid && e.2.1 == top)).map (fun e => e.2.2)).getD []

/-- Adds one relation path under its top-level key, preserving the insertion
order of keys as a JavaScript object does. -/
def insertGrouped (acc : List (String × List String)) (top : String) (rel : String) :
    List (String × List String) :=
  if acc.any (fun g => g.1 == top) then
    acc.map (fun g => if g.1 == top then (g.1, g.2 ++ [rel]) else g)
  else
    acc ++ [(top, [rel])]

/-- `RentalRepository.getGroupedRelations`: groups relation paths by their
top-level segment. -/
def getGroupedRelations (relations : List String) : List (String × List String) :=
  relations.foldl (fun acc rel =>
    insertGrouped acc ((rel.splitOn ".").headD rel) rel) []

/-- `RentalRepository.queryRentalsWithIds`: one join query per top-level
relation group over the given ids; each query returns rows in table order,
each carrying exactly its group's relation. -/
def queryRentalsWithIds (db : RelDB) (entityIds : List Nat)
    (grouped : List (String × List String)) : List PartialRental :=
  grouped.flatMap (fun g =>
    (db.ids.filter (fun i => entityIds.contains i)).map (fun i =>
      { id := i, rels := [(g.1, relItems db i g.1)] }))

/-- `findByIds`: the bare rows for the given ids, in table order, with no
relations hydrated. -/
def findByIds (db : RelDB) (ids : List Nat) : List PartialRental :=
  (db.ids.filter (fun i => ids.contains i)).map (fun i => ({ id := i, rels := [] }))

/-- First-occurrence deduplication, as a JavaScript `Set` (and the key order
of lodash `groupBy`) preserves insertion order. -/
def firstDedup (l : List Nat) : List Nat :=
  l.foldl (fun acc i => if acc.contains i then acc else acc ++ [i]) []

/-- `RentalRepository.mergeEntitiesWithRelations`: lodash `groupBy` by id
followed by a `merge` per group; the merged entity carries the union of the
group's relation keys, keyed in first-occurrence order of the ids. -/
def mergeEntitiesWithRelations (parts : List PartialRental) : List PartialRental :=
  (firstDedup (parts.map (fun p => p.id))).map (fun i =>
    { id := i, rels := (parts.filter (fun p => p.id == i)).flatMap (fun p => p.rels) })

/-- `RentalRepository.findWithRelations` on an explicit id array: fetch the
bare rows, run one join query per relation group over their ids, and merge
everything by id. -/
def findWithRelations (db : RelDB) (relations : List String) (ids : List Nat) :
    List PartialRental :=
  let entities := findByIds db ids
  if entities.isEmpty then []
  else
    let entityIds := entities.map (fun p => p.id)
    let grouped := getGroupedRelations relations
    let parts := queryRentalsWithIds db entityIds grouped
    mergeEntitiesWithRelations (parts ++ entities)

/-- `RentalRepository.findWithRelationsAndCount` (the plain, non-free-text
path): `matchedIds` and `count` are what the id-collecting `queryRentals`
query returned; relations are then joined per group and merged back per
matched id, preserving the matched-id ordering. -/
def findWithRelationsAndCount (db : RelDB) (relations : List String)
    (matchedIds : List Nat) (count : Nat) : List PartialRental × Nat :=
  if matchedIds.isEmpty then ([], count)
  else if relations.isEmpty then
    let toReturn := findByIds db matchedIds
    (toReturn, toReturn.length)
  else
    let grouped := getGroupedRelations relations
    let parts := queryRentalsWithIds db matchedIds grouped
    (matchedIds.map (fun i =>
      { id := i, rels := (parts.filter (fun p => p.id == i)).flatMap (fun p => p.rels) }),
      count)

/-- `RentalRepository.getFreeTextSearchResultsAndCount`: `searchResults` and
`count` are what the ILIKE search query returned; the matched ids are
deduplicated into a `Set`, hydrated through `findWithRelations`, and the
hydrated entities are re-assembled in the original matched-id order. -/
def getFreeTextSearchResultsAndCount (db : RelDB) (relations : List String)
    (searchResults : List Nat) (count : Nat) : List PartialRental × Nat :=
  let orderedResultsSet := firstDedup searchResults
  let rentals := findWithRelations db relations orderedResultsSet
  (orderedResultsSet.filterMap (fun i => rentals.find? (fun p => p.id == i)), count)

/-- The relation hydration both repository paths are claimed to agree on: the
entity's id together with one relation payload per top-level group, in
grouping order. -/
def hydrate (db : RelDB) (relations : List String) (i : Nat) : PartialRental :=
  { id := i, rels := (getGroupedRelations relations).map (fun g => (g.1, relItems db i g.1)) }

/-- One step of the back-fill loop of `addOption`: the row rewrite that
`addOptionValue dbAcc v.id optId "Default Value"` applies to each stored
variant row `w`. -/
def backfillStep (optId : Nat) (v : RentalVariant) (w : RentalVariant) : RentalVariant :=
  if w.id == v.id then
    { w with options := w.options ++
        [{ variant_id := v.id, option_id := some optId,
           value := "Default Value", deleted := false }] }
  else w

/-- The cumulative effect of `addOption`'s back-fill loop over the loaded
variants `vs` on a single stored variant row `w`. -/
def backfill (optId : Nat) (vs : List RentalVariant) (w : RentalVariant) : RentalVariant :=
  vs.foldl (fun wAcc v => backfillStep optId v wAcc) w

/-! Concrete fixtures used by counterexamples and witnesses: a rental (id 1)
with one option "Size" (id 2) and one variant (id 3, rank 0, Size = "S"). -/

/-- Fixture variant: id 3, rank 0, value "S" for option 2. -/
def exV1 : RentalVariant :=
  { id := 3, rental_id := 1, title := some "Base", variant_rank := 0,
    options := [{ variant_id := 3, option_id := some 2, value := "S", deleted := false }],
    deleted := false }

/-- Fixture rental: id 1, option 2 "Size", variant `exV1`. -/
def exR1 : Rental :=
  { id := 1, title := "Tent", thumbnail := none, images := [], is_giftcard := false,
    discountable := true,
    options := [{ id := 2, rental_id := 1, title := "Size", deleted := false }],
    variants := [exV1], deleted := false }

/-- Fixture store holding `exR1` and one collection (id 6). -/
def exDB : DB :=
  { rentals := [exR1],
    collections := [{ id := 6, title := "Summer", deleted := false }],
    moneyAmounts := [], regions := [], nextId := 7 }

/-- An empty store. -/
def emptyDB : DB :=
  { rentals := [], collections := [], moneyAmounts := [], regions := [], nextId := 1 }

/-- A create-rental request declaring one option but whose variant supplies
no option values, so the variant creation step fails with InvalidData. -/
def exReqBadVariant : AdminPostRentalsReq :=
  { title := "Tent", is_giftcard := false, discountable := true, thumbnail := none,
    images := [], options := ["Size"],
    variants := some [{ title := "Small", options := [], prices := [] }] }

/-- A rental update that creates a fresh variant at position 0 and keeps the
existing variant `exV1` at position 1. -/
def exUpdNewFirst : UpdateRentalInput :=
  { title := none,
    variants := some [
      { id := none, title := some "New",
        options := some [{ option_id := some 2, value := "M" }], prices := some [] },
      { id := some 3, title := none, options := none, prices := none }] }

/-- First fixture price for the C9 witness: 1000 in region 9. -/
def exPrice1 : RentalVariantPrice :=
  { currency_code := some "usd", region_id := some 9, amount := 1000,
    min_quantity := none, max_quantity := none }

/-- Second fixture price for the C9 witness: 2000 in region 9. -/
def exPrice2 : RentalVariantPrice :=
  { currency_code := some "usd", region_id := some 9, amount := 2000,
    min_quantity := none, max_quantity := none }

/-- A variant-create input with no option values at all, for the C4 witness. -/
def exCvNoValues : CreateRentalVariantInput :=
  { title := some "Bad", variant_rank := none, options := [], prices := [] }

/-- A variant-create input whose assignment (Size = "S") copies the existing
variant `exV1`, for the C5 witness. -/
def exCvDuplicate : CreateRentalVariantInput :=
  { title := some "Dup", variant_rank := none,
    options := [{ option_id := some 2, value := "S" }], prices := [] }

/-- Second fixture variant (id 5, Size = "M") for the reorder witness. -/
def exV2 : RentalVariant :=
  { id := 5, rental_id := 1, title := some "Var2", variant_rank := 1,
    options := [{ variant_id := 5, option_id := some 2, value := "M", deleted := false }],
    deleted := false }

/-- Fixture rental with two variants, for the reorder witness. -/
def exR2 : Rental := { exR1 with variants := [exV1, exV2] }

/-- Fixture store holding `exR2`. -/
def exDB2 : DB := { exDB with rentals := [exR2] }

/-- Fixture repository state for the C6 witness: rentals 10 and 11 with
variants and tags payloads. -/
def exRelDB : RelDB :=
  { ids := [10, 11],
    rel := [(10, "variants", [100]), (11, "variants", [110, 111]), (10, "tags", [5])] }

/-! General-purpose list lemmas shared by the proofs below. -/

theorem filter_map_comm {α β : Type} (f : α → β) (p : β → Bool) (l : List α) :
    (l.map f).filter p = (l.filter (fun a => p (f a))).map f := by
  induction l with
  | nil => rfl
  | cons a l ih =>
      cases hp : p (f a) <;>
        simp [List.map_cons, List.filter_cons, hp, ih]

theorem find?_map_comm {α β : Type} (f : α → β) (p : β → Bool) (l : List α) :
    (l.map f).find? p = (l.find? (fun a => p (f a))).map f := by
  induction l with
  | nil => rfl
  | cons a l ih =>
      cases hp : p (f a) <;>
        simp [List.map_cons, List.find?_cons, hp, ih]

theorem find?_eq_head?_filter {α : Type} (p : α → Bool) (l : List α) :
    l.find? p = (l.filter p).head? := by
  induction l with
  | nil => rfl
  | cons a l ih =>
      cases hp : p a with
      | true => simp only [List.find?_cons, List.filter_cons, hp]; rfl
      | false => simp only [List.find?_cons, List.filter_cons, hp]; exact ih

theorem filter_flatMap {α β : Type} (f : α → List β) (p : β → Bool) (l : List α) :
    (l.flatMap f).filter p = l.flatMap (fun a => (f a).filter p) := by
  induction l with
  | nil => rfl
  | cons a l ih => simp [List.flatMap_cons, List.filter_append, ih]

theorem flatMap_flatten_map {α β : Type} (f : α → β) (l : List α) :
    l.flatMap (fun a => [f a]) = l.map f := by
  induction l with
  | nil => rfl
  | cons a l ih => simp [List.flatMap_cons, ih]

theorem filter_beq_of_nodup {α : Type} [DecidableEq α] (l : List α) (hnd : l.Nodup)
    (i : α) (hi : i ∈ l) : l.filter (fun x => x == i) = [i] := by
  induction l with
  | nil => cases hi
  | cons a l ih =>
      by_cases hai : a = i
      · have hnotin : a ∉ l := (List.nodup_cons.mp hnd).1
        have hrest : l.filter (fun x => x == i) = [] := by
          apply List.filter_eq_nil_iff.mpr
          intro x hx
          simp only [beq_iff_eq]
          intro hxa
          exact hnotin (by rw [hai, ← hxa]; exact hx)
        simp [List.filter_cons, hai, hrest]
      · have hmem : i ∈ l := by
          rcases List.mem_cons.mp hi with h | h
          · exact absurd h.symm hai
          · exact h
        have hbeq : (a == i) = false := beq_eq_false_iff_ne.mpr hai
        simp [List.filter_cons, hbeq, ih (List.nodup_cons.mp hnd).2 hmem]

theorem find?_beq_of_mem {α : Type} [DecidableEq α] (l : List α) (i : α) (hi : i ∈ l) :
    l.find? (fun x => x == i) = some i := by
  induction l with
  | nil => cases hi
  | cons a l ih =>
      by_cases hai : a = i
      · subst hai; simp [List.find?_cons]
      · have : (a == i) = false := beq_eq_false_iff_ne.mpr hai
        have hmem : i ∈ l := by
          rcases List.mem_cons.mp hi with h | h
          · exact absurd h.symm hai
          · exact h
        simp [List.find?_cons, this, ih hmem]

theorem filterMap_eq_map_of_some {α β : Type} (f : α → Option β) (g : α → β)
    (l : List α) (h : ∀ a ∈ l, f a = some (g a)) : l.filterMap f = l.map g := by
  induction l with
  | nil => rfl
  | cons a l ih =>
      have ha := h a (List.mem_cons_self a l)
      simp [List.filterMap_cons, ha,
        ih (fun x hx => h x (List.mem_cons_of_mem a hx))]


/-- C1: In the route-level create-rental workflow, the rental row and its
variants are claimed to be created in two separate transactions, so that a
failure during variant creation leaves the rental row persisted.  This is
false: the AdminPostRentals handler wraps the rental creation and every
variant creation in one `entityManager.transaction`, so when variant creation
fails the whole transaction rolls back and no rental row remains — starting
from an empty store, the failing request leaves the store without any rental
row. -/
theorem routeCreate_variant_failure_rolls_back_rental :
    (adminPostRentals emptyDB exReqBadVariant).2 = Except.error ErrType.invalidData ∧
    (adminPostRentals emptyDB exReqBadVariant).1.rentals = [] := by
  constructor <;> rfl

/-- C1 (amended): the route-level create-rental workflow runs the rental
creation and all variant creations inside a single transaction; whenever any
step of that workflow fails — in particular a variant creation — the store is
left exactly as it was, so the rental row is not persisted. -/
theorem routeCreate_single_transaction (db : DB) (req : AdminPostRentalsReq)
    (h : (adminPostRentals db req).2.isOk = false) :
    (adminPostRentals db req).1 = db := by
  unfold adminPostRentals at h ⊢
  cases htxn : adminPostRentalsTxn db req with
  | ok res => rw [htxn] at h; simp [Except.isOk, Except.toBool] at h
  | error e => rfl

/-- C1 (witness): the amended atomicity theorem applied to the concrete
failing request on the empty store. -/
theorem routeCreate_single_transaction_witness :
    (adminPostRentals emptyDB exReqBadVariant).2.isOk = false ∧
    (adminPostRentals emptyDB exReqBadVariant).1 = emptyDB :=
  ⟨by rfl, routeCreate_single_transaction emptyDB exReqBadVariant (by rfl)⟩

/-- C2: the claim says every variant of an updated rental ends with
`variant_rank` equal to its 0-based position in the incoming array.  The code
disagrees at this input: updating rental 1 with a fresh variant at position 0
followed by the existing variant 3 at position 1 succeeds, but the JavaScript
falsy test `!rest.variant_rank` in `RentalVariantService.create` treats the
explicitly passed rank `0` as unset and replaces it with the current variant
count, so the new variant (id 7, position 0) is stored with rank 1, not 0. -/
theorem update_clobbers_rank_zero_of_new_first_variant :
    (rentalUpdate exDB 1 exUpdNewFirst).toOption.map (fun res =>
      res.1.rentals.flatMap (fun r => r.variants.map (fun v => (v.id, v.variant_rank))))
      = some [(3, 1), (7, 1)] := by
  rfl

/-- C3: the claim says all five delete operations are idempotent and never
throw for an id that is missing or already deleted.  Rental delete, variant
delete, option delete and option-value delete are indeed no-ops here, but
`RentalCollectionService.delete` resolves the collection through `retrieve`,
which throws NotFound both for an unknown id and for a second delete of the
same collection — contradicting the method's own "idempotently" doc comment
and its dead `if (!collection)` guard. -/
theorem delete_idempotency_fails_for_collections :
    rentalDelete exDB 42 = Except.ok exDB ∧
    variantDelete exDB 42 = Except.ok exDB ∧
    rentalDeleteOption exDB 1 999 = Except.ok (exDB, none) ∧
    deleteOptionValue exDB 3 77 = Except.ok exDB ∧
    collectionDelete exDB 99 = Except.error ErrType.notFound ∧
    ((collectionDelete exDB 6).toOption.map (fun db1 => collectionDelete db1 6))
      = some (Except.error ErrType.notFound) := by
  refine ⟨rfl, rfl, rfl, rfl, rfl, rfl⟩

/-! Lemmas about a single `setRegionPrice` call, phrased through the filter of
default rows for the (variant, region) scope. -/

theorem setRegionPrice_of_no_row (db : DB) (vid rid : Nat) (p : RentalVariantPrice)
    (hp : p.region_id = some rid)
    (h : db.moneyAmounts.filter (isDefaultRegionRow vid (some rid)) = []) :
    (setRegionPrice db vid p).1.moneyAmounts.filter (isDefaultRegionRow vid (some rid))
      = [{ id := db.nextId, variant_id := vid, currency_code := p.currency_code,
           region_id := some rid, amount := p.amount, min_quantity := p.min_quantity,
           max_quantity := p.max_quantity, price_list_id := none, deleted := false }] := by
  unfold setRegionPrice
  rw [hp, find?_eq_head?_filter, h]
  simp only [List.head?_nil]
  rw [List.filter_append, h]
  simp [isDefaultRegionRow]

theorem setRegionPrice_of_single_row (db : DB) (vid rid : Nat) (p : RentalVariantPrice)
    (x : MoneyAmount)
    (hp : p.region_id = some rid)
    (h : db.moneyAmounts.filter (isDefaultRegionRow vid (some rid)) = [x]) :
    (setRegionPrice db vid p).1.moneyAmounts.filter (isDefaultRegionRow vid (some rid))
      = [{ x with amount := p.amount }] := by
  unfold setRegionPrice
  rw [hp, find?_eq_head?_filter, h]
  simp only [List.head?_cons]
  rw [filter_map_comm]
  have hpres : ∀ a : MoneyAmount,
      isDefaultRegionRow vid (some rid)
        (if a.id == x.id then { a with amount := p.amount } else a)
      = isDefaultRegionRow vid (some rid) a := by
    intro a
    cases hid : (a.id == x.id) <;> simp [hid, isDefaultRegionRow]
  simp only [hpres]
  rw [h]
  simp

/-- C9: calling `setRegionPrice` twice for the same (variant, region) scope
leaves exactly one default (non-price-list) price row for that scope, with
the second call's amount: the second call updates the existing row rather
than inserting a duplicate.  The hypothesis is the data-model invariant that
at most one default price row per (variant, region) exists beforehand. -/
theorem setRegionPrice_twice_one_default_row (db : DB) (vid rid : Nat)
    (p1 p2 : RentalVariantPrice)
    (hp1 : p1.region_id = some rid) (hp2 : p2.region_id = some rid)
    (hinv : (db.moneyAmounts.filter (isDefaultRegionRow vid (some rid))).length ≤ 1) :
    ((setRegionPrice (setRegionPrice db vid p1).1 vid p2).1.moneyAmounts.filter
        (isDefaultRegionRow vid (some rid))).map (fun ma => ma.amount) = [p2.amount] := by
  cases hfl : db.moneyAmounts.filter (isDefaultRegionRow vid (some rid)) with
  | nil =>
      have h1 := setRegionPrice_of_no_row db vid rid p1 hp1 hfl
      have h2 := setRegionPrice_of_single_row (setRegionPrice db vid p1).1 vid rid p2 _ hp2 h1
      rw [h2]
      rfl
  | cons x xs =>
      have hxs : xs = [] := by
        rw [hfl] at hinv
        simp only [List.length_cons] at hinv
        exact List.length_eq_zero.mp (Nat.le_zero.mp (Nat.le_of_succ_le_succ hinv))
      subst hxs
      have h1 := setRegionPrice_of_single_row db vid rid p1 x hp1 hfl
      have h2 := setRegionPrice_of_single_row (setRegionPrice db vid p1).1 vid rid p2 _ hp2 h1
      rw [h2]
      rfl

/-- C9 (witness): the upsert theorem applied to variant 3 and region 9 on a
store with no prior price rows. -/
theorem setRegionPrice_twice_one_default_row_witness :
    ((exDB.moneyAmounts.filter (isDefaultRegionRow 3 (some 9))).length ≤ 1) ∧
    ((setRegionPrice (setRegionPrice exDB 3 exPrice1).1 3 exPrice2).1.moneyAmounts.filter
        (isDefaultRegionRow 3 (some 9))).map (fun ma => ma.amount) = [exPrice2.amount] :=
  ⟨by decide,
    setRegionPrice_twice_one_default_row exDB 3 9 exPrice1 exPrice2 rfl rfl (by decide)⟩

/-- C4: creating a variant whose option-value set does not cover the parent
rental's option set exactly — the count of supplied values differs from the
count of rental options, or some rental option has no supplied value carrying
its option id — fails with InvalidData. -/
theorem variantCreate_option_mismatch_fails (db : DB) (rentalId : Nat)
    (rental : Rental) (input : CreateRentalVariantInput)
    (hfound : findRental db rentalId = some rental)
    (hmis : (activeOptions rental).length ≠ input.options.length ∨
      ∃ o ∈ activeOptions rental, ∀ vo ∈ input.options, vo.option_id ≠ some o.id) :
    variantCreate db rentalId input = Except.error ErrType.invalidData := by
  unfold variantCreate
  rw [hfound]
  by_cases hlen : (activeOptions rental).length = input.options.length
  · have hbne : ((activeOptions rental).length != input.options.length) = false := by
      simp [hlen]
    rcases hmis with h | ⟨o, ho, hall⟩
    · exact absurd hlen h
    · have hany : (activeOptions rental).any (fun o =>
          !(input.options.any (fun vo => vo.option_id == some o.id))) = true := by
        apply List.any_eq_true.mpr
        refine ⟨o, ho, ?_⟩
        simp only [Bool.not_eq_true']
        apply List.any_eq_false.mpr
        intro vo hvo
        simp only [beq_iff_eq]
        exact hall vo hvo
      simp [hbne, hany]
  · have hbne : ((activeOptions rental).length != input.options.length) = true := by
      simp [bne_iff_ne, hlen]
    simp [hbne]

/-- C4 (witness): the mismatch theorem applied to rental 1, which has one
option, and an input supplying zero values. -/
theorem variantCreate_option_mismatch_fails_witness :
    findRental exDB 1 = some exR1 ∧
    (activeOptions exR1).length ≠ exCvNoValues.options.length ∧
    variantCreate exDB 1 exCvNoValues = Except.error ErrType.invalidData :=
  ⟨rfl, by decide,
    variantCreate_option_mismatch_fails exDB 1 exR1 exCvNoValues rfl (Or.inl (by decide))⟩

/-- C5: creating a variant whose option-value assignment covers the rental's
option set exactly and agrees, value for value, with the assignment of one of
the rental's existing variants fails with DuplicateError.  The hypotheses say
the input is a genuine assignment (its value count matches the option count,
every rental option is covered, and no option id is supplied twice) that is
identical to the existing variant's assignment on that variant's values —
which, for well-formed variants, are exactly the rental's options.  In
particular the second of two create calls with the same (option, value)
combination always fails. -/
theorem variantCreate_duplicate_combination_fails (db : DB) (rentalId : Nat)
    (rental : Rental) (input : CreateRentalVariantInput)
    (hfound : findRental db rentalId = some rental)
    (hlen : input.options.length = (activeOptions rental).length)
    (hcover : ∀ o ∈ activeOptions rental, ∃ vo ∈ input.options, vo.option_id = some o.id)
    (hnodup : (input.options.map (fun vo => vo.option_id)).Nodup)
    (hdup : ∃ v ∈ activeVariants rental, ∀ ov ∈ activeValues v,
      ∃ vo ∈ input.options, vo.option_id = ov.option_id ∧ vo.value = ov.value) :
    variantCreate db rentalId input = Except.error ErrType.duplicateError := by
  unfold variantCreate
  rw [hfound]
  have hbne : ((activeOptions rental).length != input.options.length) = false := by
    simp [hlen]
  have hcov : ((activeOptions rental).any (fun o =>
      !(input.options.any (fun vo => vo.option_id == some o.id)))) = false := by
    apply List.any_eq_false.mpr
    intro o ho
    obtain ⟨vo, hvomem, hvoid⟩ := hcover o ho
    have hany : input.options.any (fun vo => vo.option_id == some o.id) = true :=
      List.any_eq_true.mpr ⟨vo, hvomem, by simp [hvoid]⟩
    simp [hany]
  have hdupb : ((activeVariants rental).any (fun v => (activeValues v).all (fun ov =>
      match input.options.find? (fun o => ov.option_id == o.option_id) with
      | some vo => vo.value == ov.value
      | none => false))) = true := by
    apply List.any_eq_true.mpr
    obtain ⟨v, hvmem, hvall⟩ := hdup
    refine ⟨v, hvmem, List.all_eq_true.mpr ?_⟩
    intro ov hov
    obtain ⟨vo, hvomem, hvoid, hvoval⟩ := hvall ov hov
    have hps : (input.options.find? (fun o => ov.option_id == o.option_id)).isSome := by
      apply List.find?_isSome.mpr
      exact ⟨vo, hvomem, by simp [hvoid]⟩
    obtain ⟨vo2, hvo2⟩ := Option.isSome_iff_exists.mp hps
    have hvo2mem : vo2 ∈ input.options := List.mem_of_find?_eq_some hvo2
    have hvo2id : ov.option_id = vo2.option_id := by
      have hpred := List.find?_some hvo2
      simpa [beq_iff_eq] using hpred
    have heq : vo2 = vo :=
      List.inj_on_of_nodup_map hnodup hvo2mem hvomem (by rw [← hvo2id, hvoid])
    rw [hvo2]
    simp [heq, hvoval]
  simp [hbne, hcov, hdupb]

/-- C5 (witness): the duplicate-combination theorem applied to rental 1 and
an input copying variant 3's assignment. -/
theorem variantCreate_duplicate_combination_fails_witness :
    findRental exDB 1 = some exR1 ∧
    exCvDuplicate.options.length = (activeOptions exR1).length ∧
    (∃ v ∈ activeVariants exR1, ∀ ov ∈ activeValues v,
      ∃ vo ∈ exCvDuplicate.options, vo.option_id = ov.option_id ∧ vo.value = ov.value) ∧
    variantCreate exDB 1 exCvDuplicate = Except.error ErrType.duplicateError :=
  ⟨rfl, rfl, by decide,
    variantCreate_duplicate_combination_fails exDB 1 exR1 exCvDuplicate rfl rfl
      (by decide) (by decide) (by decide)⟩

/-! Lemmas about `lookupAll`, the id-to-variant mapping of
`reorderVariants`. -/

theorem lookupAll_ok (vs : List RentalVariant) (order : List Nat)
    (h : ∀ vid ∈ order, ((vs.find? (fun v => v.id == vid)).isSome)) :
    lookupAll vs order
      = Except.ok (order.filterMap (fun vid => vs.find? (fun v => v.id == vid))) := by
  induction order with
  | nil => rfl
  | cons vid order ih =>
      obtain ⟨v, hv⟩ := Option.isSome_iff_exists.mp (h vid (List.mem_cons_self vid order))
      have ihr := ih (fun x hx => h x (List.mem_cons_of_mem _ hx))
      simp [lookupAll, hv, ihr, List.filterMap_cons, Except.map]

theorem lookupAll_ids (vs : List RentalVariant) (order : List Nat)
    (h : ∀ vid ∈ order, ((vs.find? (fun v => v.id == vid)).isSome)) :
    (order.filterMap (fun vid => vs.find? (fun v => v.id == vid))).map (fun v => v.id)
      = order := by
  induction order with
  | nil => rfl
  | cons vid order ih =>
      obtain ⟨v, hv⟩ := Option.isSome_iff_exists.mp (h vid (List.mem_cons_self vid order))
      have hid : v.id = vid := by
        have hpred := List.find?_some hv
        simpa [beq_iff_eq] using hpred
      have ihr := ih (fun x hx => h x (List.mem_cons_of_mem _ hx))
      simp [List.filterMap_cons, hv, hid, ihr]

/-- C10: for an id list of the right length all of whose elements are ids of
current variants — duplicates permitted — `reorderVariants` succeeds and the
resulting variants collection is the id list mapped element-wise to the first
current variant carrying each id; a repeated id therefore yields that variant
twice and the variant set is not preserved. -/
theorem reorderVariants_elementwise (db : DB) (rentalId : Nat) (rental : Rental)
    (order : List Nat)
    (h1 : findRental db rentalId = some rental)
    (h2 : order.length = (activeVariants rental).length)
    (h3 : ∀ vid ∈ order, ∃ v ∈ activeVariants rental, v.id = vid) :
    (∃ db2, reorderVariants db rentalId order = Except.ok (db2,
      { rental with variants := order.filterMap (fun vid =>
          (activeVariants rental).find? (fun v => v.id == vid)) })) ∧
    (order.filterMap (fun vid =>
        (activeVariants rental).find? (fun v => v.id == vid))).map (fun v => v.id)
      = order := by
  have hsome : ∀ vid ∈ order,
      ((activeVariants rental).find? (fun v => v.id == vid)).isSome := by
    intro vid hvid
    obtain ⟨v, hvmem, hvid2⟩ := h3 vid hvid
    apply List.find?_isSome.mpr
    exact ⟨v, hvmem, by simp [hvid2]⟩
  constructor
  · have hbne : ((activeVariants rental).length != order.length) = false := by
      simp [h2]
    simp only [reorderVariants, h1, hbne, Bool.false_eq_true, if_false,
      lookupAll_ok _ _ hsome]
    exact ⟨_, rfl⟩
  · exact lookupAll_ids _ _ hsome

/-! Lemmas about the back-fill loop of `addOption`. -/

theorem map_self_of_pointwise {α : Type} (f : α → α) (l : List α)
    (h : ∀ a ∈ l, f a = a) : l.map f = l := by
  induction l with
  | nil => rfl
  | cons a l ih =>
      rw [List.map_cons, h a (List.mem_cons_self a l),
        ih (fun x hx => h x (List.mem_cons_of_mem _ hx))]

theorem find?_map_pres {α : Type} (f : α → α) (p : α → Bool)
    (h : ∀ a, p (f a) = p a) (l : List α) :
    (l.map f).find? p = (l.find? p).map f := by
  induction l with
  | nil => rfl
  | cons a l ih =>
      cases hp : p a with
      | true => simp [List.find?_cons, h a, hp]
      | false => simp [List.find?_cons, h a, hp, ih]

theorem backfillStep_id (optId : Nat) (v w : RentalVariant) :
    (backfillStep optId v w).id = w.id := by
  unfold backfillStep
  cases h : (w.id == v.id) <;> simp

theorem backfillStep_deleted (optId : Nat) (v w : RentalVariant) :
    (backfillStep optId v w).deleted = w.deleted := by
  unfold backfillStep
  cases h : (w.id == v.id) <;> simp

theorem backfill_deleted (optId : Nat) (vs : List RentalVariant) :
    ∀ w : RentalVariant, (backfill optId vs w).deleted = w.deleted := by
  induction vs with
  | nil => intro w; rfl
  | cons v vs ih =>
      intro w
      show (backfill optId vs (backfillStep optId v w)).deleted = w.deleted
      rw [ih, backfillStep_deleted]

theorem backfill_not_mem (optId : Nat) (vs : List RentalVariant) :
    ∀ w : RentalVariant, (∀ v ∈ vs, w.id ≠ v.id) → backfill optId vs w = w := by
  induction vs with
  | nil => intro w _; rfl
  | cons v vs ih =>
      intro w h
      have hne : (w.id == v.id) = false :=
        beq_eq_false_iff_ne.mpr (h v (List.mem_cons_self v vs))
      show backfill optId vs (backfillStep optId v w) = w
      rw [show backfillStep optId v w = w by unfold backfillStep; simp [hne]]
      exact ih w (fun u hu => h u (List.mem_cons_of_mem _ hu))

theorem backfill_of_mem_nodup (optId : Nat) (vs : List RentalVariant)
    (hnd : (vs.map (fun v => v.id)).Nodup) :
    ∀ w ∈ vs, backfill optId vs w =
      { w with options := w.options ++
          [{ variant_id := w.id, option_id := some optId,
             value := "Default Value", deleted := false }] } := by
  induction vs with
  | nil => intro w hw; cases hw
  | cons v vs ih =>
      intro w hw
      have hnd2 : v.id ∉ vs.map (fun x => x.id) ∧ (vs.map (fun x => x.id)).Nodup := by
        rw [List.map_cons] at hnd
        exact List.nodup_cons.mp hnd
      rcases List.mem_cons.mp hw with heq | hmem
      · subst heq
        have hstep : backfillStep optId w w =
            { w with options := w.options ++
                [{ variant_id := w.id, option_id := some optId,
                   value := "Default Value", deleted := false }] } := by
          unfold backfillStep
          simp
        show backfill optId vs (backfillStep optId w w) = _
        rw [hstep]
        apply backfill_not_mem
        intro u hu
        show w.id ≠ u.id
        intro hvu
        exact hnd2.1 (by rw [hvu]; exact List.mem_map_of_mem (fun x => x.id) hu)
      · have hne : (w.id == v.id) = false := by
          apply beq_eq_false_iff_ne.mpr
          intro hwv
          exact hnd2.1 (by rw [← hwv]; exact List.mem_map_of_mem (fun x => x.id) hmem)
        show backfill optId vs (backfillStep optId v w) = _
        rw [show backfillStep optId v w = w by unfold backfillStep; simp [hne]]
        exact ih hnd2.2 w hmem

theorem foldl_addOptionValue (optId : Nat) (vs : List RentalVariant) :
    ∀ db : DB,
    vs.foldl (fun dbAcc v => addOptionValue dbAcc v.id optId "Default Value") db =
    { db with rentals := db.rentals.map (fun r =>
        { r with variants := r.variants.map (backfill optId vs) }) } := by
  induction vs with
  | nil =>
      intro db
      show db = { db with rentals := db.rentals.map _ }
      rw [map_self_of_pointwise _ _ (fun r _ => by
        rw [map_self_of_pointwise (backfill optId []) r.variants (fun w _ => rfl)])]
  | cons v vs ih =>
      intro db
      show vs.foldl _ (addOptionValue db v.id optId "Default Value") = _
      rw [ih]
      show { db with rentals := (db.rentals.map (fun (r : Rental) => { r with variants := r.variants.map (backfillStep optId v) })).map (fun (r : Rental) => { r with variants := r.variants.map (backfill optId vs) }) } = _
      rw [List.map_map]
      congr 1
      apply List.map_congr_left
      intro r _
      show { r with variants := (r.variants.map (backfillStep optId v)).map (backfill optId vs) } = _
      rw [List.map_map]
      rfl

/-- C7: `addOption` fails with DuplicateError when an option with the exact
same title already exists on the rental; otherwise it appends the new option
row and back-fills every pre-existing (non-deleted) variant of the rental
with a "Default Value" option value for it.  The no-dup hypothesis on variant
ids is the primary-key invariant of the variant table. -/
theorem addOption_duplicate_or_backfills (db : DB) (rentalId : Nat) (rental : Rental)
    (optionTitle : String)
    (hfound : findRental db rentalId = some rental)
    (hnd : (rental.variants.map (fun v => v.id)).Nodup) :
    ((∃ o ∈ activeOptions rental, o.title = optionTitle) →
        addOption db rentalId optionTitle = Except.error ErrType.duplicateError) ∧
    ((∀ o ∈ activeOptions rental, o.title ≠ optionTitle) →
      ∃ dbr result, addOption db rentalId optionTitle = Except.ok (dbr, result) ∧
        result.options = rental.options ++
          [{ id := db.nextId, rental_id := rentalId, title := optionTitle,
             deleted := false }] ∧
        activeVariants result = (activeVariants rental).map (fun v =>
          { v with options := v.options ++
              [{ variant_id := v.id, option_id := some db.nextId,
                 value := "Default Value", deleted := false }] })) := by
  have hfound2 : db.rentals.find? (fun r => r.id == rentalId && !r.deleted) = some rental :=
    hfound
  have hp : (rental.id == rentalId && !rental.deleted) = true := by
    have h2 := List.find?_some hfound2
    exact h2
  constructor
  · rintro ⟨o, ho, hot⟩
    have hany : (activeOptions rental).any (fun o => o.title == optionTitle) = true :=
      List.any_eq_true.mpr ⟨o, ho, by simp [hot]⟩
    simp [addOption, hfound, hany]
  · intro hno
    have hany : (activeOptions rental).any (fun o => o.title == optionTitle) = false := by
      apply List.any_eq_false.mpr
      intro o ho
      simp only [beq_iff_eq]
      exact hno o ho
    have hGpres : ∀ a : Rental,
        ((appendOptionRow rentalId
            { id := db.nextId, rental_id := rentalId, title := optionTitle,
              deleted := false } a).id == rentalId &&
          !(appendOptionRow rentalId
            { id := db.nextId, rental_id := rentalId, title := optionTitle,
              deleted := false } a).deleted)
        = (a.id == rentalId && !a.deleted) := by
      intro a
      unfold appendOptionRow
      by_cases hc : (a.id == rentalId && !a.deleted) = true
      · rw [if_pos hc]
      · rw [if_neg hc]
    have hrun : addOption db rentalId optionTitle =
        Except.ok
          ({ db with rentals := (db.rentals.map (appendOptionRow rentalId { id := db.nextId, rental_id := rentalId, title := optionTitle, deleted := false })).map (fun (r : Rental) => { r with variants := r.variants.map (backfill db.nextId (activeVariants rental)) }), nextId := db.nextId + 1 },
            (fun (r : Rental) => { r with variants := r.variants.map (backfill db.nextId (activeVariants rental)) }) (appendOptionRow rentalId { id := db.nextId, rental_id := rentalId, title := optionTitle, deleted := false } rental)) := by
      simp only [addOption, hfound, hany, Bool.false_eq_true, if_false,
        foldl_addOptionValue]
      have hfind2 : ((db.rentals.map (appendOptionRow rentalId { id := db.nextId, rental_id := rentalId, title := optionTitle, deleted := false })).map (fun (r : Rental) => { r with variants := r.variants.map (backfill db.nextId (activeVariants rental)) })).find? (fun r => r.id == rentalId && !r.deleted) = some ((fun (r : Rental) => { r with variants := r.variants.map (backfill db.nextId (activeVariants rental)) }) (appendOptionRow rentalId { id := db.nextId, rental_id := rentalId, title := optionTitle, deleted := false } rental)) := by
        rw [find?_map_pres (fun (r : Rental) => { r with variants := r.variants.map (backfill db.nextId (activeVariants rental)) }) (fun r => r.id == rentalId && !r.deleted) (fun a => rfl)]
        rw [find?_map_pres (appendOptionRow rentalId { id := db.nextId, rental_id := rentalId, title := optionTitle, deleted := false }) (fun r => r.id == rentalId && !r.deleted) hGpres]
        rw [hfound2]
        rfl
      rw [show findRental { db with rentals := (db.rentals.map (appendOptionRow rentalId { id := db.nextId, rental_id := rentalId, title := optionTitle, deleted := false })).map (fun (r : Rental) => { r with variants := r.variants.map (backfill db.nextId (activeVariants rental)) }), nextId := db.nextId + 1 } rentalId = some ((fun (r : Rental) => { r with variants := r.variants.map (backfill db.nextId (activeVariants rental)) }) (appendOptionRow rentalId { id := db.nextId, rental_id := rentalId, title := optionTitle, deleted := false } rental)) from hfind2]
    have hGr : appendOptionRow rentalId { id := db.nextId, rental_id := rentalId, title := optionTitle, deleted := false } rental = { rental with options := rental.options ++ [{ id := db.nextId, rental_id := rentalId, title := optionTitle, deleted := false }] } := by
      unfold appendOptionRow
      rw [if_pos hp]
    refine ⟨_, _, hrun, ?_, ?_⟩
    · show (appendOptionRow rentalId { id := db.nextId, rental_id := rentalId, title := optionTitle, deleted := false } rental).options = _
      rw [hGr]
    · show ((appendOptionRow rentalId { id := db.nextId, rental_id := rentalId, title := optionTitle, deleted := false } rental).variants.map (backfill db.nextId (activeVariants rental))).filter (fun v => !v.deleted) = _
      rw [hGr]
      show (rental.variants.map (backfill db.nextId (activeVariants rental))).filter (fun v => !v.deleted) = _
      rw [filter_map_comm]
      simp only [backfill_deleted]
      have hndv : ((activeVariants rental).map (fun v => v.id)).Nodup :=
        List.Nodup.sublist (List.Sublist.map _ (List.filter_sublist rental.variants)) hnd
      exact List.map_congr_left (fun w hw =>
        backfill_of_mem_nodup db.nextId (activeVariants rental) hndv w hw)

/-! Lemmas about the soft-removal map of `deleteOption`. -/

theorem filter_markRemoved_nil (optionId : Nat) (l : List RentalOption) :
    (l.map (fun o => if o.id == optionId then { o with deleted := true } else o)).filter
      (fun o => o.id == optionId && !o.deleted) = [] := by
  apply List.filter_eq_nil_iff.mpr
  intro x hx
  obtain ⟨a, _, rfl⟩ := List.mem_map.mp hx
  by_cases ha : a.id = optionId
  · simp [ha]
  · simp [ha]

theorem findRental_map_pres (db : DB) (rid : Nat) (f : Rental → Rental)
    (h : ∀ a : Rental, ((f a).id == rid && !(f a).deleted) = (a.id == rid && !a.deleted)) :
    findRental { db with rentals := db.rentals.map f } rid = (findRental db rid).map f :=
  find?_map_pres f (fun r => r.id == rid && !r.deleted) h db.rentals

theorem deleteOption_softremove_state (db : DB) (rentalId optionId : Nat) (rental : Rental)
    (hfound : findRental db rentalId = some rental) (opt : RentalOption)
    (hopt : rental.options.find? (fun o => o.id == optionId && !o.deleted) = some opt) :
    ∃ r2, findRental { db with rentals := db.rentals.map (fun (r : Rental) => { r with options := r.options.map (fun o => if o.id == optionId then { o with deleted := true } else o), variants := r.variants.map (fun v => { v with options := v.options.map (fun ov => if ov.option_id == some optionId then { ov with deleted := true } else ov) }) }) } rentalId = some r2 ∧
      r2.options.filter (fun o => o.id == optionId && !o.deleted) = [] ∧
      ∃ o ∈ r2.options, o.id = optionId ∧ o.deleted = true := by
  have hfound2 : db.rentals.find? (fun r => r.id == rentalId && !r.deleted) = some rental :=
    hfound
  have hpred := List.find?_some hopt
  have hpred2 : (opt.id == optionId) = true ∧ (!opt.deleted) = true := by
    simpa using hpred
  have hoptid : (opt.id == optionId) = true := hpred2.1
  have hoptmem : opt ∈ rental.options := List.mem_of_find?_eq_some hopt
  have hfr : findRental { db with rentals := db.rentals.map (fun (r : Rental) => { r with options := r.options.map (fun o => if o.id == optionId then { o with deleted := true } else o), variants := r.variants.map (fun v => { v with options := v.options.map (fun ov => if ov.option_id == some optionId then { ov with deleted := true } else ov) }) }) } rentalId = some ((fun (r : Rental) => { r with options := r.options.map (fun o => if o.id == optionId then { o with deleted := true } else o), variants := r.variants.map (fun v => { v with options := v.options.map (fun ov => if ov.option_id == some optionId then { ov with deleted := true } else ov) }) }) rental) := by
    rw [findRental_map_pres db rentalId (fun (r : Rental) => { r with options := r.options.map (fun o => if o.id == optionId then { o with deleted := true } else o), variants := r.variants.map (fun v => { v with options := v.options.map (fun ov => if ov.option_id == some optionId then { ov with deleted := true } else ov) }) }) (fun a => rfl), hfound]
    rfl
  refine ⟨_, hfr, ?_, ?_⟩
  · exact filter_markRemoved_nil optionId rental.options
  · refine ⟨{ opt with deleted := true }, ?_, beq_iff_eq.mp hoptid, rfl⟩
    have hmem := List.mem_map_of_mem
      (fun o => if o.id == optionId then { o with deleted := true } else o) hoptmem
    simp only [hoptid, if_true] at hmem
    exact hmem

/-- C8: `deleteOption` is a no-op when the rental carries no (non-deleted)
option with the given id; when the rental has variants and two of them hold
differing values for that option, it fails with InvalidData; when all
variants share the same value (or there are no variants), it soft-removes the
option — the option row stays present but is marked deleted, so it no longer
appears in the active option set. -/
theorem deleteOption_guard (db : DB) (rentalId optionId : Nat) (rental : Rental)
    (hfound : findRental db rentalId = some rental) :
    (rental.options.find? (fun o => o.id == optionId && !o.deleted) = none →
        rentalDeleteOption db rentalId optionId = Except.ok (db, none)) ∧
    ((rental.options.find? (fun o => o.id == optionId && !o.deleted)).isSome →
      (∃ v1 ∈ activeVariants rental, ∃ v2 ∈ activeVariants rental,
          optionValueOf v1 optionId ≠ optionValueOf v2 optionId) →
        rentalDeleteOption db rentalId optionId = Except.error ErrType.invalidData) ∧
    ((rental.options.find? (fun o => o.id == optionId && !o.deleted)).isSome →
      (activeVariants rental = [] ∨
        ∀ v1 ∈ activeVariants rental, ∀ v2 ∈ activeVariants rental,
          optionValueOf v1 optionId = optionValueOf v2 optionId) →
      ∃ db2, rentalDeleteOption db rentalId optionId = Except.ok (db2, some rental) ∧
        ∃ r2, findRental db2 rentalId = some r2 ∧
          r2.options.filter (fun o => o.id == optionId && !o.deleted) = [] ∧
          ∃ o ∈ r2.options, o.id = optionId ∧ o.deleted = true) := by
  refine ⟨?_, ?_, ?_⟩
  · intro hnone
    simp [rentalDeleteOption, hfound, hnone]
  · intro hsome hdiff
    obtain ⟨opt, hopt⟩ := Option.isSome_iff_exists.mp hsome
    obtain ⟨v1, hv1, v2, hv2, hne⟩ := hdiff
    cases hvs : activeVariants rental with
    | nil => rw [hvs] at hv1; cases hv1
    | cons firstVariant rest =>
        have hallb : (firstVariant :: rest).all (fun v =>
            optionValueOf v optionId == optionValueOf firstVariant optionId) = false := by
          cases hb : (firstVariant :: rest).all (fun v =>
              optionValueOf v optionId == optionValueOf firstVariant optionId) with
          | false => rfl
          | true =>
              exfalso
              have hall := List.all_eq_true.mp hb
              rw [hvs] at hv1 hv2
              have e1 := beq_iff_eq.mp (hall v1 hv1)
              have e2 := beq_iff_eq.mp (hall v2 hv2)
              exact hne (e1.trans e2.symm)
        simp [rentalDeleteOption, hfound, hopt, hvs, hallb]
  · intro hsome hall
    obtain ⟨opt, hopt⟩ := Option.isSome_iff_exists.mp hsome
    cases hvs : activeVariants rental with
    | nil =>
        have hrun : rentalDeleteOption db rentalId optionId = Except.ok ({ db with rentals := db.rentals.map (fun (r : Rental) => { r with options := r.options.map (fun o => if o.id == optionId then { o with deleted := true } else o), variants := r.variants.map (fun v => { v with options := v.options.map (fun ov => if ov.option_id == some optionId then { ov with deleted := true } else ov) }) }) }, some rental) := by
          simp [rentalDeleteOption, hfound, hopt, hvs]
        exact ⟨_, hrun,
          deleteOption_softremove_state db rentalId optionId rental hfound opt hopt⟩
    | cons firstVariant rest =>
        have heqv : ∀ v1 ∈ activeVariants rental, ∀ v2 ∈ activeVariants rental,
            optionValueOf v1 optionId = optionValueOf v2 optionId := by
          rcases hall with h | h
          · rw [h] at hvs; cases hvs
          · exact h
        have hallb : (firstVariant :: rest).all (fun v =>
            optionValueOf v optionId == optionValueOf firstVariant optionId) = true := by
          apply List.all_eq_true.mpr
          intro v hv
          apply beq_iff_eq.mpr
          apply heqv v (by rw [hvs]; exact hv) firstVariant
          rw [hvs]
          exact List.mem_cons_self firstVariant rest
        have hrun : rentalDeleteOption db rentalId optionId = Except.ok ({ db with rentals := db.rentals.map (fun (r : Rental) => { r with options := r.options.map (fun o => if o.id == optionId then { o with deleted := true } else o), variants := r.variants.map (fun v => { v with options := v.options.map (fun ov => if ov.option_id == some optionId then { ov with deleted := true } else ov) }) }) }, some rental) := by
          simp [rentalDeleteOption, hfound, hopt, hvs, hallb]
        exact ⟨_, hrun,
          deleteOption_softremove_state db rentalId optionId rental hfound opt hopt⟩

/-- C8 (witness): the deleteOption theorem applied to rental 1 and option 2,
whose single variant trivially shares its value, discharging the soft-remove
branch; the no-op branch is exercised with the absent option id 999. -/
theorem deleteOption_guard_witness :
    findRental exDB 1 = some exR1 ∧
    (exR1.options.find? (fun o => o.id == 999 && !o.deleted) = none ∧
      rentalDeleteOption exDB 1 999 = Except.ok (exDB, none)) ∧
    ((exR1.options.find? (fun o => o.id == 2 && !o.deleted)).isSome ∧
      ∃ db2, rentalDeleteOption exDB 1 2 = Except.ok (db2, some exR1) ∧
        ∃ r2, findRental db2 1 = some r2 ∧
          r2.options.filter (fun o => o.id == 2 && !o.deleted) = [] ∧
          ∃ o ∈ r2.options, o.id = 2 ∧ o.deleted = true) :=
  ⟨rfl,
    ⟨rfl, (deleteOption_guard exDB 1 999 exR1 rfl).1 rfl⟩,
    ⟨rfl, (deleteOption_guard exDB 1 2 exR1 rfl).2.2 rfl
      (Or.inr (by decide))⟩⟩

/-- C7 (witness): the addOption theorem applied to rental 1 with the existing
title "Size" (DuplicateError) and the fresh title "Color" (back-fill). -/
theorem addOption_duplicate_or_backfills_witness :
    findRental exDB 1 = some exR1 ∧
    (exR1.variants.map (fun v => v.id)).Nodup ∧
    (((∃ o ∈ activeOptions exR1, o.title = "Size") →
        addOption exDB 1 "Size" = Except.error ErrType.duplicateError) ∧ True) ∧
    (((∀ o ∈ activeOptions exR1, o.title ≠ "Color") →
      ∃ dbr result, addOption exDB 1 "Color" = Except.ok (dbr, result) ∧
        result.options = exR1.options ++
          [{ id := exDB.nextId, rental_id := 1, title := "Color", deleted := false }] ∧
        activeVariants result = (activeVariants exR1).map (fun v =>
          { v with options := v.options ++
              [{ variant_id := v.id, option_id := some exDB.nextId,
                 value := "Default Value", deleted := false }] })) ∧ True) :=
  ⟨rfl, by decide,
    ⟨(addOption_duplicate_or_backfills exDB 1 exR1 "Size" rfl (by decide)).1, trivial⟩,
    ⟨(addOption_duplicate_or_backfills exDB 1 exR1 "Color" rfl (by decide)).2, trivial⟩⟩

/-! Lemmas about the repository's split-join-merge algorithm. -/

theorem flatMap_congr {α β : Type} (l : List α) (f g : α → List β)
    (h : ∀ a ∈ l, f a = g a) : l.flatMap f = l.flatMap g := by
  induction l with
  | nil => rfl
  | cons a l ih =>
      rw [List.flatMap_cons, List.flatMap_cons, h a (List.mem_cons_self a l),
        ih (fun x hx => h x (List.mem_cons_of_mem _ hx))]

theorem flatMap_map {α β γ : Type} (f : α → β) (g : β → List γ) (l : List α) :
    (l.map f).flatMap g = l.flatMap (fun a => g (f a)) := by
  induction l with
  | nil => rfl
  | cons a l ih => simp [List.flatMap_cons, ih]

theorem mem_foldl_dedup (i : Nat) :
    ∀ (l acc : List Nat),
    (i ∈ l.foldl (fun acc j => if acc.contains j then acc else acc ++ [j]) acc)
      ↔ (i ∈ acc ∨ i ∈ l) := by
  intro l
  induction l with
  | nil => intro acc; simp
  | cons a l ih =>
      intro acc
      rw [List.foldl_cons, ih]
      by_cases hc : acc.contains a = true
      · rw [if_pos hc]
        constructor
        · rintro (h | h)
          · exact Or.inl h
          · exact Or.inr (List.mem_cons_of_mem _ h)
        · rintro (h | h)
          · exact Or.inl h
          · rcases List.mem_cons.mp h with rfl | h2
            · exact Or.inl (List.elem_iff.mp hc)
            · exact Or.inr h2
      · rw [if_neg hc]
        constructor
        · rintro (h | h)
          · rcases List.mem_append.mp h with h2 | h2
            · exact Or.inl h2
            · rcases List.mem_singleton.mp h2 with rfl
              exact Or.inr (List.mem_cons_self _ _)
          · exact Or.inr (List.mem_cons_of_mem _ h)
        · rintro (h | h)
          · exact Or.inl (List.mem_append.mpr (Or.inl h))
          · rcases List.mem_cons.mp h with rfl | h2
            · exact Or.inl (List.mem_append.mpr (Or.inr (List.mem_singleton.mpr rfl)))
            · exact Or.inr h2

theorem mem_firstDedup (i : Nat) (l : List Nat) : i ∈ firstDedup l ↔ i ∈ l := by
  unfold firstDedup
  rw [mem_foldl_dedup]
  simp

theorem nodup_foldl_dedup :
    ∀ (l acc : List Nat), acc.Nodup →
    (l.foldl (fun acc j => if acc.contains j then acc else acc ++ [j]) acc).Nodup := by
  intro l
  induction l with
  | nil => intro acc h; exact h
  | cons a l ih =>
      intro acc h
      rw [List.foldl_cons]
      by_cases hc : acc.contains a = true
      · rw [if_pos hc]; exact ih acc h
      · rw [if_neg hc]
        apply ih
        apply List.nodup_append.mpr
        refine ⟨h, List.nodup_singleton a, ?_⟩
        intro x hx hxa
        rcases List.mem_singleton.mp hxa with rfl
        exact hc (List.elem_iff.mpr hx)

theorem nodup_firstDedup (l : List Nat) : (firstDedup l).Nodup :=
  nodup_foldl_dedup l [] List.nodup_nil

theorem parts_filter_eq (db : RelDB) (entityIds : List Nat)
    (grouped : List (String × List String)) (i : Nat)
    (hnd : db.ids.Nodup) (hin : i ∈ db.ids) (hel : entityIds.contains i = true) :
    (queryRentalsWithIds db entityIds grouped).filter (fun p => p.id == i)
      = grouped.map (fun g => ({ id := i, rels := [(g.1, relItems db i g.1)] } : PartialRental)) := by
  unfold queryRentalsWithIds
  rw [filter_flatMap]
  have htf : (db.ids.filter (fun j => entityIds.contains j)).filter (fun j => j == i)
      = [i] := by
    have hnd2 : (db.ids.filter (fun j => entityIds.contains j)).Nodup := hnd.filter _
    have hmem : i ∈ db.ids.filter (fun j => entityIds.contains j) :=
      List.mem_filter.mpr ⟨hin, hel⟩
    exact filter_beq_of_nodup _ hnd2 i hmem
  have hgrp : ∀ g ∈ grouped,
      (((db.ids.filter (fun j => entityIds.contains j)).map (fun j =>
        ({ id := j, rels := [(g.1, relItems db j g.1)] } : PartialRental))).filter
        (fun p => p.id == i))
      = [({ id := i, rels := [(g.1, relItems db i g.1)] } : PartialRental)] := by
    intro g _
    rw [filter_map_comm, htf]
    rfl
  rw [flatMap_congr _ _
    (fun g => [({ id := i, rels := [(g.1, relItems db i g.1)] } : PartialRental)]) hgrp]
  exact flatMap_flatten_map _ grouped

/-- The plain (non-free-text) path hydrates each matched id with one relation
payload per top-level group, in matched-id order. -/
theorem findWithRelationsAndCount_hydrates (db : RelDB) (relations : List String)
    (matchedIds : List Nat) (cnt : Nat)
    (hnd : db.ids.Nodup) (hrel : relations ≠ [])
    (hmnd : matchedIds.Nodup) (hmatched : ∀ i ∈ matchedIds, i ∈ db.ids) :
    (findWithRelationsAndCount db relations matchedIds cnt).1
      = matchedIds.map (hydrate db relations) := by
  unfold findWithRelationsAndCount
  cases matchedIds with
  | nil => simp
  | cons i0 rest =>
      have hrele : relations.isEmpty = false := by
        cases relations with
        | nil => exact absurd rfl hrel
        | cons a l => rfl
      simp only [List.isEmpty_cons, hrele, Bool.false_eq_true, if_false]
      apply List.map_congr_left
      intro i hi
      have hpf := parts_filter_eq db (i0 :: rest) (getGroupedRelations relations) i hnd
        (hmatched i hi) (List.elem_iff.mpr hi)
      show ({ id := i, rels := ((queryRentalsWithIds db (i0 :: rest) (getGroupedRelations relations)).filter (fun p => p.id == i)).flatMap (fun p => p.rels) } : PartialRental) = hydrate db relations i
      rw [hpf]
      unfold hydrate
      congr 1
      rw [flatMap_map]
      exact flatMap_flatten_map _ (getGroupedRelations relations)

/-- Looking an id up in the merge of a part list yields the entity carrying
the concatenation of that id's relation fragments. -/
theorem mergeEnt_find (parts : List PartialRental) (i : Nat)
    (hmem : i ∈ parts.map (fun p => p.id)) :
    (mergeEntitiesWithRelations parts).find? (fun p => p.id == i)
      = some ({ id := i, rels := (parts.filter (fun p => p.id == i)).flatMap (fun p => p.rels) } : PartialRental) := by
  unfold mergeEntitiesWithRelations
  rw [find?_map_comm]
  have hk : (firstDedup (parts.map (fun p => p.id))).find? (fun k => k == i) = some i :=
    find?_beq_of_mem _ i ((mem_firstDedup _ _).mpr hmem)
  show ((firstDedup (parts.map (fun p => p.id))).find? (fun k => k == i)).map _ = _
  rw [hk]
  rfl

/-- Looking one matched id up in the merged output of the id-array branch of
`findWithRelations` yields exactly its hydrated entity. -/
theorem findWithRelations_find (db : RelDB) (relations : List String)
    (ids : List Nat)
    (hnd : db.ids.Nodup) (hsub : ∀ i ∈ ids, i ∈ db.ids) :
    ∀ i ∈ ids, (findWithRelations db relations ids).find? (fun p => p.id == i)
      = some (hydrate db relations i) := by
  intro i hi
  unfold findWithRelations findByIds
  set tf := db.ids.filter (fun j => ids.contains j) with htf
  have htfmem : i ∈ tf := List.mem_filter.mpr ⟨hsub i hi, List.elem_iff.mpr hi⟩
  have htfnd : tf.Nodup := hnd.filter _
  have hne : (tf.map (fun j => ({ id := j, rels := [] } : PartialRental))).isEmpty
      = false := by
    cases hc : tf with
    | nil => rw [hc] at htfmem; cases htfmem
    | cons a l => rfl
  simp only [hne, Bool.false_eq_true, if_false]
  set entities := tf.map (fun j => ({ id := j, rels := [] } : PartialRental)) with hent
  set parts := queryRentalsWithIds db (entities.map (fun p => p.id))
    (getGroupedRelations relations) with hparts
  have hentids : entities.map (fun p => p.id) = tf := by
    rw [hent, List.map_map]
    exact map_self_of_pointwise _ _ (fun a _ => rfl)
  have hmem : i ∈ (parts ++ entities).map (fun p => p.id) := by
    rw [List.map_append]
    refine List.mem_append.mpr (Or.inr ?_)
    rw [hentids]
    exact htfmem
  rw [mergeEnt_find (parts ++ entities) i hmem]
  have hp1 : parts.filter (fun p => p.id == i)
      = (getGroupedRelations relations).map (fun g =>
          ({ id := i, rels := [(g.1, relItems db i g.1)] } : PartialRental)) := by
    rw [hparts]
    apply parts_filter_eq db _ _ i hnd (hsub i hi)
    rw [hentids]
    exact List.elem_iff.mpr htfmem
  have hp2 : entities.filter (fun p => p.id == i)
      = [({ id := i, rels := [] } : PartialRental)] := by
    rw [hent, filter_map_comm]
    have hf : tf.filter (fun j => j == i) = [i] :=
      filter_beq_of_nodup tf htfnd i htfmem
    show (tf.filter (fun j => j == i)).map _ = _
    rw [hf]
    rfl
  unfold hydrate
  congr 1
  rw [List.filter_append, hp1, hp2, List.flatMap_append, flatMap_map, flatMap_flatten_map]
  simp

/-- C6: on a free-text list query the repository collects the matched ids
first and returns the hydrated rentals in the original matched-id order
(first occurrence of each id), and both the free-text and the plain path
hydrate every returned rental identically: one relation payload per
top-level relation group, merged back by id — both paths equal the same
per-id `hydrate` function. -/
theorem freeText_order_and_hydration_agree (db : RelDB) (relations : List String)
    (searchResults matchedIds : List Nat) (cnt1 cnt2 : Nat)
    (hnd : db.ids.Nodup)
    (hrel : relations ≠ [])
    (hsearch : ∀ i ∈ searchResults, i ∈ db.ids)
    (hmnd : matchedIds.Nodup)
    (hmatched : ∀ i ∈ matchedIds, i ∈ db.ids) :
    (getFreeTextSearchResultsAndCount db relations searchResults cnt1).1
      = (firstDedup searchResults).map (hydrate db relations) ∧
    (findWithRelationsAndCount db relations matchedIds cnt2).1
      = matchedIds.map (hydrate db relations) := by
  constructor
  · unfold getFreeTextSearchResultsAndCount
    apply filterMap_eq_map_of_some
    intro i hi
    apply findWithRelations_find db relations (firstDedup searchResults) hnd
    · intro j hj
      exact hsearch j ((mem_firstDedup j searchResults).mp hj)
    · exact hi
  · exact findWithRelationsAndCount_hydrates db relations matchedIds cnt2 hnd hrel
      hmnd hmatched

/-- C6 (witness): the order-and-hydration theorem applied to a search that
matched ids [11, 10, 11] and a plain query that matched [11, 10], with the
relation list ["variants", "variants.options", "tags"]. -/
theorem freeText_order_and_hydration_agree_witness :
    exRelDB.ids.Nodup ∧
    (getFreeTextSearchResultsAndCount exRelDB ["variants", "variants.options", "tags"]
        [11, 10, 11] 2).1
      = (firstDedup [11, 10, 11]).map
          (hydrate exRelDB ["variants", "variants.options", "tags"]) ∧
    (findWithRelationsAndCount exRelDB ["variants", "variants.options", "tags"]
        [11, 10] 2).1
      = [11, 10].map (hydrate exRelDB ["variants", "variants.options", "tags"]) :=
  ⟨by decide,
    (freeText_order_and_hydration_agree exRelDB
      ["variants", "variants.options", "tags"] [11, 10, 11] [11, 10] 2 2
      (by decide) (by decide) (by decide) (by decide) (by decide)).1,
    (freeText_order_and_hydration_agree exRelDB
      ["variants", "variants.options", "tags"] [11, 10, 11] [11, 10] 2 2
      (by decide) (by decide) (by decide) (by decide) (by decide)).2⟩

/-- C10 (witness): reordering with the duplicate id list `[3, 3]` on a rental
whose variants are 3 and 5 succeeds and returns variant 3 twice, dropping
variant 5 — the variant set is not preserved. -/
theorem reorderVariants_elementwise_witness :
    findRental exDB2 1 = some exR2 ∧
    [3, 3].length = (activeVariants exR2).length ∧
    ((∃ db2, reorderVariants exDB2 1 [3, 3] = Except.ok (db2,
        { exR2 with variants := [3, 3].filterMap (fun vid =>
            (activeVariants exR2).find? (fun v => v.id == vid)) })) ∧
      ([3, 3].filterMap (fun vid =>
          (activeVariants exR2).find? (fun v => v.id == vid))).map (fun v => v.id)
        = [3, 3]) ∧
    [3, 3].filterMap (fun vid =>
        (activeVariants exR2).find? (fun v => v.id == vid)) = [exV1, exV1] :=
  ⟨rfl, rfl,
    reorderVariants_elementwise exDB2 1 exR2 [3, 3] rfl rfl (by decide),
    rfl⟩

end MedusaRental
